import Mathlib

/-!
Shallow embedding of the Smart Predictive Maintenance backend
(an Express server persisting `machines` and `vitals` to a JSON file).

Modelling conventions:
* Timestamps and dates are opaque epoch values in milliseconds, modelled as
  `Int`.  A JS-falsy date/timestamp string (absent or `""`) is modelled as
  `none`.
* JSON numbers appearing in vital readings and thresholds are modelled as
  `Int`; all the comparisons the server performs are order comparisons, and
  the derived quantities (elapsed minutes / days) are computed in `ℚ`
  because JS division is exact real division on these magnitudes.
* Each HTTP handler becomes a pure function from the request data, the
  current time, the freshly generated id and the store to the new store plus
  the response data.  The call to `sendAlertEmail` is modelled by a boolean
  `sent` field (the notifier itself only logs or mails and never fails into
  the handler).
-/

/-- Per-machine threshold ceilings (`thresholds` object). -/
structure Thresholds where
  temperature : Int
  vibration : Int
  pressure : Int
deriving Repr, DecidableEq

/-- A machine record as stored in `db.machines`.  `thresholds` is optional
because an update request may overwrite it with `null`. -/
structure Machine where
  id : String
  name : String
  code : String
  location : String
  nextMaintenanceDate : Option Int
  responsibleEmail : String
  thresholds : Option Thresholds
  lastMaintenanceReminderSent : Option Int
  lastAbnormalAlertSent : Option Int
  createdAt : Int
deriving Repr, DecidableEq

/-- A vital reading as stored in `db.vitals`; a non-numeric body field is
stored as `null` (here `none`). -/
structure Vital where
  id : String
  machineId : String
  temperature : Option Int
  vibration : Option Int
  pressure : Option Int
  timestamp : Int
deriving Repr, DecidableEq

/-- The persisted document: `{ machines: [...], vitals: [...] }`. -/
structure Db where
  machines : List Machine
  vitals : List Vital
deriving Repr, DecidableEq

/-- Environment configuration read by the handlers
(`ABNORMAL_ALERT_MIN_GAP_MINUTES`, `MAINTENANCE_LOOKAHEAD_DAYS`). -/
structure Env where
  minGapMinutes : Int
  lookaheadDays : Int
deriving Repr, DecidableEq

/-- The parsed defaults `parseInt('30')` and `parseInt('7')`. -/
def defaultEnv : Env := { minGapMinutes := 30, lookaheadDays := 7 }

/-- The default thresholds object `{temperature: 80, vibration: 10, pressure: 200}`. -/
def defaultThresholds : Thresholds :=
  { temperature := 80, vibration := 10, pressure := 200 }

/-! ### JSON-ish response values (for handlers whose response shape matters) -/

/-- A JSON scalar, enough to state what the health handler returns. -/
inductive JVal where
  | str (s : String)
  | num (n : Nat)
deriving Repr, DecidableEq

/-- `GET /api/health`: `res.json({ status: 'ok', machines: db.machines.length })`,
as the ordered list of key/value pairs of the response object. -/
def healthHandler (db : Db) : List (String × JVal) :=
  [("status", JVal.str "ok"), ("machines", JVal.num db.machines.length)]

/-! ### Machine creation: `POST /api/machines` -/

/-- Request body of `POST /api/machines`.  `none` models an absent field. -/
structure CreateBody where
  name : Option String
  code : Option String
  location : Option String
  nextMaintenanceDate : Option Int
  responsibleEmail : Option String
  thresholds : Option Thresholds
deriving Repr, DecidableEq

/-- Response of a machine-creation or update request: new store, HTTP status,
and the machine record in the JSON body (when any). -/
structure MachineResp where
  db : Db
  status : Nat
  record : Option Machine
deriving Repr, DecidableEq

/-- `POST /api/machines`: validates `!name || !nextMaintenanceDate`
(a JS-falsy `name` is absent or the empty string; a falsy date string is
modelled by `none`), builds the machine with `|| ''` / `|| default`
fallbacks, pushes it and returns 201 with the record. -/
def createMachine (now : Int) (freshId : String) (db : Db) (b : CreateBody) :
    MachineResp :=
  match b.name, b.nextMaintenanceDate with
  | some nm, some due =>
    if nm = "" then { db := db, status := 400, record := none }
    else
      let machine : Machine :=
        { id := freshId
          name := nm
          code := b.code.getD ""
          location := b.location.getD ""
          nextMaintenanceDate := some due
          responsibleEmail := b.responsibleEmail.getD ""
          thresholds := some (b.thresholds.getD defaultThresholds)
          lastMaintenanceReminderSent := none
          lastAbnormalAlertSent := none
          createdAt := now }
      { db := { machines := db.machines ++ [machine], vitals := db.vitals }
        status := 201
        record := some machine }
  | _, _ => { db := db, status := 400, record := none }

/-! ### Claims C5, C6, C9 -/

/-- C5: a creation request missing `name` or `nextMaintenanceDate` yields a
400 validation failure, returns no record, and leaves the store unchanged. -/
theorem c5_create_validation (now : Int) (freshId : String) (db : Db)
    (b : CreateBody) (h : b.name = none ∨ b.nextMaintenanceDate = none) :
    (createMachine now freshId db b).status = 400 ∧
    (createMachine now freshId db b).record = none ∧
    (createMachine now freshId db b).db = db := by
  rcases h with h | h <;>
    cases hn : b.name <;> cases hd : b.nextMaintenanceDate <;>
      simp_all [createMachine]

/-- Closed instance of `c5_create_validation` at a concrete request. -/
theorem c5_create_validation_witness :
    (createMachine 0 "id1" { machines := [], vitals := [] }
      { name := some "pump", code := none, location := none,
        nextMaintenanceDate := none, responsibleEmail := none,
        thresholds := none }).status = 400 ∧
    (createMachine 0 "id1" { machines := [], vitals := [] }
      { name := some "pump", code := none, location := none,
        nextMaintenanceDate := none, responsibleEmail := none,
        thresholds := none }).record = none ∧
    (createMachine 0 "id1" { machines := [], vitals := [] }
      { name := some "pump", code := none, location := none,
        nextMaintenanceDate := none, responsibleEmail := none,
        thresholds := none }).db = { machines := [], vitals := [] } :=
  c5_create_validation 0 "id1" _ _ (Or.inr rfl)

/-- C6: a successful creation stores and returns a record carrying the
generated id, `null` last-sent timestamps, and — when the `thresholds`
field is omitted — the default thresholds 80/10/200. -/
theorem c6_create_defaults (now : Int) (freshId : String) (db : Db)
    (b : CreateBody) (nm : String) (due : Int)
    (hn : b.name = some nm) (hne : nm ≠ "")
    (hd : b.nextMaintenanceDate = some due) :
    ∃ mach : Machine,
      (createMachine now freshId db b).status = 201 ∧
      (createMachine now freshId db b).record = some mach ∧
      (createMachine now freshId db b).db.machines = db.machines ++ [mach] ∧
      (createMachine now freshId db b).db.vitals = db.vitals ∧
      mach.id = freshId ∧
      mach.lastMaintenanceReminderSent = none ∧
      mach.lastAbnormalAlertSent = none ∧
      (b.thresholds = none → mach.thresholds = some defaultThresholds) := by
  simp only [createMachine, hn, hd, if_neg hne]
  refine ⟨_, ?_, rfl, ?_, ?_, ?_, ?_, ?_, ?_⟩ <;>
    first
      | trivial
      | (intro ht; simp [ht])

/-- Closed instance of `c6_create_defaults` at a concrete request. -/
theorem c6_create_defaults_witness :
    ∃ mach : Machine,
      (createMachine 5 "id1" { machines := [], vitals := [] }
        { name := some "pump", code := none, location := none,
          nextMaintenanceDate := some 1000, responsibleEmail := none,
          thresholds := none }).status = 201 ∧
      (createMachine 5 "id1" { machines := [], vitals := [] }
        { name := some "pump", code := none, location := none,
          nextMaintenanceDate := some 1000, responsibleEmail := none,
          thresholds := none }).record = some mach ∧
      (createMachine 5 "id1" { machines := [], vitals := [] }
        { name := some "pump", code := none, location := none,
          nextMaintenanceDate := some 1000, responsibleEmail := none,
          thresholds := none }).db.machines = [] ++ [mach] ∧
      (createMachine 5 "id1" { machines := [], vitals := [] }
        { name := some "pump", code := none, location := none,
          nextMaintenanceDate := some 1000, responsibleEmail := none,
          thresholds := none }).db.vitals = [] ∧
      mach.id = "id1" ∧
      mach.lastMaintenanceReminderSent = none ∧
      mach.lastAbnormalAlertSent = none ∧
      ((none : Option Thresholds) = none → mach.thresholds = some defaultThresholds) :=
  c6_create_defaults 5 "id1" _ _ "pump" 1000 rfl (by decide) rfl

/-- C9 counterexample: the health response has no `machineCount` key — the
machine count is returned under the key `machines`. -/
theorem c9_no_machineCount_key :
    (healthHandler { machines := [], vitals := [] }).lookup "machineCount"
      = none := by decide

/-- C9 (amended): the health handler is total and returns a `status` field
together with a `machines` field holding the number of stored machines. -/
theorem c9_health (db : Db) :
    (healthHandler db).lookup "status" = some (JVal.str "ok") ∧
    (healthHandler db).lookup "machines" = some (JVal.num db.machines.length) := by
  constructor <;> rfl

/-! ### Machine update: `PUT /api/machines/:id` -/

/-- Request body of `PUT /api/machines/:id`.  Each field is `none` when
absent from the JSON body; for fields that are themselves nullable in the
record, a present-`null` value is `some none`. -/
structure UpdateBody where
  id : Option String
  name : Option String
  code : Option String
  location : Option String
  nextMaintenanceDate : Option (Option Int)
  responsibleEmail : Option String
  thresholds : Option (Option Thresholds)
  lastMaintenanceReminderSent : Option (Option Int)
  lastAbnormalAlertSent : Option (Option Int)
  createdAt : Option Int
deriving Repr, DecidableEq

/-- The spread `{...machines[idx], ...req.body, id}`: body fields override
stored fields, and the trailing `id` pins the identifier back to the path
parameter regardless of any `id` in the body. -/
def mergeMachine (m : Machine) (b : UpdateBody) (pathId : String) : Machine :=
  { id := pathId
    name := b.name.getD m.name
    code := b.code.getD m.code
    location := b.location.getD m.location
    nextMaintenanceDate := b.nextMaintenanceDate.getD m.nextMaintenanceDate
    responsibleEmail := b.responsibleEmail.getD m.responsibleEmail
    thresholds := b.thresholds.getD m.thresholds
    lastMaintenanceReminderSent :=
      b.lastMaintenanceReminderSent.getD m.lastMaintenanceReminderSent
    lastAbnormalAlertSent := b.lastAbnormalAlertSent.getD m.lastAbnormalAlertSent
    createdAt := b.createdAt.getD m.createdAt }

/-- Update the first element satisfying `p` (the source assigns
`db.machines[idx]` at `idx = findIndex(...)`). -/
def updateFirst (p : α → Bool) (f : α → α) : List α → List α
  | [] => []
  | x :: xs => if p x then f x :: xs else x :: updateFirst p f xs

/-- `PUT /api/machines/:id`: 404 when `findIndex` misses, otherwise replace
the found record by the merge and return it. -/
def updateMachine (db : Db) (pathId : String) (b : UpdateBody) : MachineResp :=
  match db.machines.find? (fun m => m.id == pathId) with
  | none => { db := db, status := 404, record := none }
  | some m =>
    let m' := mergeMachine m b pathId
    { db := { machines := updateFirst (fun x => x.id == pathId) (fun _ => m') db.machines
              vitals := db.vitals }
      status := 200
      record := some m' }

/-! ### Machine delete: `DELETE /api/machines/:id` -/

/-- `DELETE /api/machines/:id`: 404 when `findIndex` misses, otherwise
`splice` out that machine and keep only vitals of other machines. -/
def deleteMachine (db : Db) (pathId : String) : Db × Nat :=
  match db.machines.findIdx? (fun m => m.id == pathId) with
  | none => (db, 404)
  | some i =>
    ({ machines := db.machines.eraseIdx i
       vitals := db.vitals.filter (fun v => !(v.machineId == pathId)) }, 204)

/-! ### List helper lemmas shared by the handler proofs -/

theorem updateFirst_append_cons {α : Type} (p : α → Bool) (f : α → α) :
    ∀ (pre : List α) (m : α) (post : List α),
      (∀ x ∈ pre, p x = false) → p m = true →
      updateFirst p f (pre ++ m :: post) = pre ++ f m :: post := by
  intro pre m post hpre hm
  induction pre with
  | nil => simp [updateFirst, hm]
  | cons x xs ih =>
    have hx : p x = false := hpre x (by simp)
    simp only [List.cons_append, updateFirst, hx]
    simp only [Bool.false_eq_true, if_false]
    have := ih (fun y hy => hpre y (by simp [hy]))
    simp only [List.append_eq]
    rw [this]

theorem find?_append_cons {α : Type} (p : α → Bool) :
    ∀ (pre : List α) (m : α) (post : List α),
      (∀ x ∈ pre, p x = false) → p m = true →
      List.find? p (pre ++ m :: post) = some m := by
  intro pre m post hpre hm
  induction pre with
  | nil => simp [List.find?, hm]
  | cons x xs ih =>
    have hx : p x = false := hpre x (by simp)
    simp only [List.cons_append, List.find?, hx]
    exact ih (fun y hy => hpre y (by simp [hy]))

theorem find?_eq_some_decomp {α : Type} (p : α → Bool) :
    ∀ (l : List α) (m : α), List.find? p l = some m →
      ∃ pre post, l = pre ++ m :: post ∧ (∀ x ∈ pre, p x = false) := by
  intro l
  induction l with
  | nil => intro m h; simp [List.find?] at h
  | cons x xs ih =>
    intro m h
    by_cases hx : p x = true
    · refine ⟨[], xs, ?_, by simp⟩
      simp [List.find?, hx] at h
      simp [h]
    · have hx' : p x = false := by
        cases hpx : p x
        · rfl
        · exact absurd hpx hx
      simp only [List.find?, hx'] at h
      obtain ⟨pre, post, hl, hpre⟩ := ih m h
      refine ⟨x :: pre, post, by simp [hl], ?_⟩
      intro y hy
      rcases List.mem_cons.mp hy with hy | hy
      · simpa [hy] using hx'
      · exact hpre y hy

theorem findIdx?_append_cons {α : Type} (p : α → Bool) :
    ∀ (pre : List α) (m : α) (post : List α),
      (∀ x ∈ pre, p x = false) → p m = true →
      List.findIdx? p (pre ++ m :: post) = some pre.length := by
  intro pre m post hpre hm
  induction pre with
  | nil => simp [List.findIdx?_cons, hm]
  | cons x xs ih =>
    have hx : p x = false := hpre x (by simp)
    have := ih (fun y hy => hpre y (by simp [hy]))
    simp [List.findIdx?_cons, hx, this]

theorem eraseIdx_append_cons {α : Type} :
    ∀ (pre : List α) (m : α) (post : List α),
      List.eraseIdx (pre ++ m :: post) pre.length = pre ++ post := by
  intro pre m post
  induction pre with
  | nil => simp [List.eraseIdx]
  | cons x xs ih => simp [List.eraseIdx, ih]

/-! ### Concrete fixtures used by the witness theorems -/

def machA : Machine :=
  { id := "m1", name := "Pump A", code := "", location := "",
    nextMaintenanceDate := some 1000000, responsibleEmail := "",
    thresholds := some defaultThresholds,
    lastMaintenanceReminderSent := none, lastAbnormalAlertSent := none,
    createdAt := 0 }

def machB : Machine := { machA with id := "m2", name := "Pump B" }

def vitA1 : Vital :=
  { id := "v1", machineId := "m1", temperature := some 90,
    vibration := none, pressure := none, timestamp := 10 }

def vitB1 : Vital := { vitA1 with id := "v2", machineId := "m2" }

def dbAB : Db := { machines := [machA, machB], vitals := [vitA1, vitB1] }

/-! ### Claim C7 -/

/-- C7: updating an unknown id yields 404 and an unchanged store; updating a
known id replaces exactly the first machine bearing that id by the merge of
its previous fields with the supplied partial fields (present body fields
override, absent ones are preserved), keeps the path id even when the body
carries an `id`, and returns the updated record. -/
theorem c7_update_merge (db : Db) (pathId : String) (b : UpdateBody) :
    ((∀ x ∈ db.machines, x.id ≠ pathId) →
      (updateMachine db pathId b).status = 404 ∧
      (updateMachine db pathId b).db = db ∧
      (updateMachine db pathId b).record = none) ∧
    (∀ m, db.machines.find? (fun x => x.id == pathId) = some m →
      ∃ m' pre post,
        db.machines = pre ++ m :: post ∧
        (∀ x ∈ pre, x.id ≠ pathId) ∧
        (updateMachine db pathId b).status = 200 ∧
        (updateMachine db pathId b).record = some m' ∧
        (updateMachine db pathId b).db.machines = pre ++ m' :: post ∧
        (updateMachine db pathId b).db.vitals = db.vitals ∧
        m'.id = pathId ∧
        (∀ v, b.name = some v → m'.name = v) ∧
        (b.name = none → m'.name = m.name) ∧
        (∀ v, b.code = some v → m'.code = v) ∧
        (b.code = none → m'.code = m.code) ∧
        (∀ v, b.location = some v → m'.location = v) ∧
        (b.location = none → m'.location = m.location) ∧
        (∀ v, b.nextMaintenanceDate = some v → m'.nextMaintenanceDate = v) ∧
        (b.nextMaintenanceDate = none → m'.nextMaintenanceDate = m.nextMaintenanceDate) ∧
        (∀ v, b.responsibleEmail = some v → m'.responsibleEmail = v) ∧
        (b.responsibleEmail = none → m'.responsibleEmail = m.responsibleEmail) ∧
        (∀ v, b.thresholds = some v → m'.thresholds = v) ∧
        (b.thresholds = none → m'.thresholds = m.thresholds) ∧
        (∀ v, b.lastMaintenanceReminderSent = some v →
          m'.lastMaintenanceReminderSent = v) ∧
        (b.lastMaintenanceReminderSent = none →
          m'.lastMaintenanceReminderSent = m.lastMaintenanceReminderSent) ∧
        (∀ v, b.lastAbnormalAlertSent = some v → m'.lastAbnormalAlertSent = v) ∧
        (b.lastAbnormalAlertSent = none →
          m'.lastAbnormalAlertSent = m.lastAbnormalAlertSent) ∧
        (∀ v, b.createdAt = some v → m'.createdAt = v) ∧
        (b.createdAt = none → m'.createdAt = m.createdAt)) := by
  constructor
  · intro hnone
    have hfind : db.machines.find? (fun x => x.id == pathId) = none := by
      rw [List.find?_eq_none]
      intro x hx
      simpa using hnone x hx
    simp [updateMachine, hfind]
  · intro m hm
    have hpm : (m.id == pathId) = true := by simpa using List.find?_some hm
    obtain ⟨pre, post, hsplit, hpre⟩ := find?_eq_some_decomp _ db.machines m hm
    refine ⟨mergeMachine m b pathId, pre, post, hsplit, ?_, ?_, ?_, ?_, ?_, ?_, ?_⟩
    · intro x hx
      simpa using hpre x hx
    · simp [updateMachine, hm]
    · simp [updateMachine, hm]
    · simp only [updateMachine, hm]
      rw [hsplit]
      exact updateFirst_append_cons _ _ pre m post hpre hpm
    · simp [updateMachine, hm]
    · rfl
    · refine ⟨fun v hv => by simp [mergeMachine, hv], fun hv => by simp [mergeMachine, hv],
        fun v hv => by simp [mergeMachine, hv], fun hv => by simp [mergeMachine, hv],
        fun v hv => by simp [mergeMachine, hv], fun hv => by simp [mergeMachine, hv],
        fun v hv => by simp [mergeMachine, hv], fun hv => by simp [mergeMachine, hv],
        fun v hv => by simp [mergeMachine, hv], fun hv => by simp [mergeMachine, hv],
        fun v hv => by simp [mergeMachine, hv], fun hv => by simp [mergeMachine, hv],
        fun v hv => by simp [mergeMachine, hv], fun hv => by simp [mergeMachine, hv],
        fun v hv => by simp [mergeMachine, hv], fun hv => by simp [mergeMachine, hv],
        fun v hv => by simp [mergeMachine, hv], fun hv => by simp [mergeMachine, hv]⟩

/-- Update body used by the C7 witness: carries an `id` that must be ignored
and overrides `name`, leaving every other field absent. -/
def updBody : UpdateBody :=
  { id := some "evil", name := some "Pump A2", code := none, location := none,
    nextMaintenanceDate := none, responsibleEmail := none, thresholds := none,
    lastMaintenanceReminderSent := none, lastAbnormalAlertSent := none,
    createdAt := none }

/-- Closed instance of `c7_update_merge` on the two-machine store, updating
machine `m1` with a body that tries to overwrite the id. -/
theorem c7_update_merge_witness :
    ∃ m' pre post,
      dbAB.machines = pre ++ machA :: post ∧
      (∀ x ∈ pre, x.id ≠ "m1") ∧
      (updateMachine dbAB "m1" updBody).status = 200 ∧
      (updateMachine dbAB "m1" updBody).record = some m' ∧
      (updateMachine dbAB "m1" updBody).db.machines = pre ++ m' :: post ∧
      (updateMachine dbAB "m1" updBody).db.vitals = dbAB.vitals ∧
      m'.id = "m1" ∧
      (∀ v, updBody.name = some v → m'.name = v) ∧
      (updBody.name = none → m'.name = machA.name) ∧
      (∀ v, updBody.code = some v → m'.code = v) ∧
      (updBody.code = none → m'.code = machA.code) ∧
      (∀ v, updBody.location = some v → m'.location = v) ∧
      (updBody.location = none → m'.location = machA.location) ∧
      (∀ v, updBody.nextMaintenanceDate = some v → m'.nextMaintenanceDate = v) ∧
      (updBody.nextMaintenanceDate = none →
        m'.nextMaintenanceDate = machA.nextMaintenanceDate) ∧
      (∀ v, updBody.responsibleEmail = some v → m'.responsibleEmail = v) ∧
      (updBody.responsibleEmail = none →
        m'.responsibleEmail = machA.responsibleEmail) ∧
      (∀ v, updBody.thresholds = some v → m'.thresholds = v) ∧
      (updBody.thresholds = none → m'.thresholds = machA.thresholds) ∧
      (∀ v, updBody.lastMaintenanceReminderSent = some v →
        m'.lastMaintenanceReminderSent = v) ∧
      (updBody.lastMaintenanceReminderSent = none →
        m'.lastMaintenanceReminderSent = machA.lastMaintenanceReminderSent) ∧
      (∀ v, updBody.lastAbnormalAlertSent = some v →
        m'.lastAbnormalAlertSent = v) ∧
      (updBody.lastAbnormalAlertSent = none →
        m'.lastAbnormalAlertSent = machA.lastAbnormalAlertSent) ∧
      (∀ v, updBody.createdAt = some v → m'.createdAt = v) ∧
      (updBody.createdAt = none → m'.createdAt = machA.createdAt) :=
  (c7_update_merge dbAB "m1" updBody).2 machA (by decide)

/-! ### Claim C4 -/

/-- C4: deleting a known machine id removes that machine and exactly the
vitals referencing it, in place, and leaves every other machine and every
other machine's vitals untouched; deleting an unknown id yields 404 with an
unchanged store. -/
theorem c4_delete_cascade (db : Db) (pathId : String) :
    ((∀ x ∈ db.machines, x.id ≠ pathId) →
      deleteMachine db pathId = (db, 404)) ∧
    (∀ pre m post, db.machines = pre ++ m :: post →
      (∀ x ∈ pre, x.id ≠ pathId) → m.id = pathId →
      (deleteMachine db pathId).2 = 204 ∧
      (deleteMachine db pathId).1.machines = pre ++ post ∧
      (deleteMachine db pathId).1.vitals
        = db.vitals.filter (fun v => decide (v.machineId ≠ pathId)) ∧
      (∀ v, v ∈ (deleteMachine db pathId).1.vitals ↔
        (v ∈ db.vitals ∧ v.machineId ≠ pathId))) := by
  constructor
  · intro hnone
    have hfi : db.machines.findIdx? (fun x => x.id == pathId) = none := by
      rw [List.findIdx?_eq_none_iff]
      intro x hx
      simpa using hnone x hx
    simp [deleteMachine, hfi]
  · intro pre m post hsplit hpre hid
    have hpre' : ∀ x ∈ pre, (x.id == pathId) = false := fun x hx => by
      simpa using hpre x hx
    have hm' : (m.id == pathId) = true := by simpa using hid
    have hfi : db.machines.findIdx? (fun x => x.id == pathId) = some pre.length := by
      rw [hsplit]
      exact findIdx?_append_cons _ pre m post hpre' hm'
    refine ⟨by simp [deleteMachine, hfi], ?_, ?_, ?_⟩
    · simp only [deleteMachine, hfi]
      rw [hsplit]
      exact eraseIdx_append_cons pre m post
    · simp only [deleteMachine, hfi]
      apply List.filter_congr
      intro v hv
      by_cases h : v.machineId = pathId <;> simp [h]
    · intro v
      simp only [deleteMachine, hfi, List.mem_filter]
      constructor
      · rintro ⟨hv, hb⟩
        refine ⟨hv, ?_⟩
        simpa using hb
      · rintro ⟨hv, hb⟩
        refine ⟨hv, ?_⟩
        simpa using hb

/-- Closed instance of `c4_delete_cascade`: deleting `m1` from the
two-machine store keeps `m2` and only `m2`'s vitals. -/
theorem c4_delete_cascade_witness :
    (deleteMachine dbAB "m1").2 = 204 ∧
    (deleteMachine dbAB "m1").1.machines = [] ++ [machB] ∧
    (deleteMachine dbAB "m1").1.vitals
      = dbAB.vitals.filter (fun v => decide (v.machineId ≠ "m1")) ∧
    (∀ v, v ∈ (deleteMachine dbAB "m1").1.vitals ↔
      (v ∈ dbAB.vitals ∧ v.machineId ≠ "m1")) :=
  (c4_delete_cascade dbAB "m1").2 [] machA [machB] rfl (by simp) rfl

/-! ### Vitals listing: `GET /api/machines/:id/vitals` -/

/-- Ascending ordering used by the comparator
`(a, b) => new Date(a.timestamp) - new Date(b.timestamp)`. -/
def tsLe (a b : Vital) : Prop := a.timestamp ≤ b.timestamp

instance : DecidableRel tsLe := fun a b =>
  inferInstanceAs (Decidable (a.timestamp ≤ b.timestamp))

instance : IsTotal Vital tsLe := ⟨fun a b => le_total a.timestamp b.timestamp⟩

instance : IsTrans Vital tsLe := ⟨fun _ _ _ h1 h2 => le_trans h1 h2⟩

/-- The machine's vitals, filtered and sorted ascending by timestamp
(`Array.prototype.sort` with a numeric comparator is a stable ascending
sort, modelled by a stable insertion sort). -/
def machineVitalsSorted (db : Db) (mid : String) : List Vital :=
  List.insertionSort tsLe (db.vitals.filter (fun v => v.machineId == mid))

/-- Value of a digit run, most significant digit first. -/
def digitsToNat (cs : List Char) : Nat :=
  cs.foldl (fun n c => n * 10 + (c.toNat - 48)) 0

/-- Model of JS `parseInt(s, 10)`: skip leading spaces, read an optional
sign, then the longest leading digit run; `none` models `NaN`. -/
def jsParseInt (s : String) : Option Int :=
  match s.data.dropWhile (fun c => c = ' ') with
  | '-' :: r =>
    let ds := r.takeWhile Char.isDigit
    if ds.isEmpty then none else some (-(digitsToNat ds : Int))
  | '+' :: r =>
    let ds := r.takeWhile Char.isDigit
    if ds.isEmpty then none else some ((digitsToNat ds : Int))
  | r =>
    let ds := r.takeWhile Char.isDigit
    if ds.isEmpty then none else some ((digitsToNat ds : Int))

/-- Model of `arr.slice(-limit)` where `limit` is an `Int` or `NaN`
(`none`): `ToInteger(NaN) = 0` and `-0 = 0`, so both behave as `slice(0)`;
a positive `limit` keeps the last `limit` elements; a negative `limit`
drops `-limit` elements from the front. -/
def jsSliceNeg {α : Type} (l : List α) : Option Int → List α
  | none => l
  | some k =>
    if k ≤ 0 then l.drop (min (-k).toNat l.length)
    else l.drop (l.length - k.toNat)

/-- The vitals-listing pipeline after query parsing:
`filter(machineId).sort(byTimestamp).slice(-limit)`. -/
def listVitals (db : Db) (mid : String) (lim : Option Int) : List Vital :=
  jsSliceNeg (machineVitalsSorted db mid) lim

/-- `GET /api/machines/:id/vitals`: `parseInt(req.query.limit || '50', 10)`
feeding the pipeline (`limitQ = none` models an absent parameter and
`some ""` an empty one, both JS-falsy). -/
def getVitalsHandler (db : Db) (mid : String) (limitQ : Option String) :
    List Vital :=
  let q := match limitQ with
    | none => "50"
    | some s => if s = "" then "50" else s
  listVitals db mid (jsParseInt q)

/-- Store with a single machine and a single vital, used to exhibit the
limit-0 behaviour. -/
def dbOneVital : Db := { machines := [machA], vitals := [vitA1] }

/-! ### Claims C3 and C10 -/

/-- C3 counterexample: with requested limit 0 the handler returns the whole
vitals list, so on a store with one vital the result has more than 0
elements — the claim "never contains more than N elements" fails at N = 0. -/
theorem c3_limit_zero_counterexample :
    ¬((getVitalsHandler dbOneVital "m1" (some "0")).length ≤ 0) := by decide

/-- C3 (amended to positive limits): for every machine id and requested
limit N ≥ 1 the result is exactly the machine's vitals, ascending by
timestamp, truncated to the most recent N, hence never longer than N; an
absent limit defaults to 50. -/
theorem c3_list_vitals (db : Db) (mid : String) (k : Int) (hk : 1 ≤ k) :
    (listVitals db mid (some k)).length ≤ k.toNat ∧
    List.Sorted tsLe (listVitals db mid (some k)) ∧
    (∀ v ∈ listVitals db mid (some k), v.machineId = mid ∧ v ∈ db.vitals) ∧
    (∃ dropped, machineVitalsSorted db mid = dropped ++ listVitals db mid (some k)) ∧
    (listVitals db mid (some k)).length
      = min k.toNat (db.vitals.filter (fun v => v.machineId == mid)).length ∧
    List.Perm (machineVitalsSorted db mid)
      (db.vitals.filter (fun v => v.machineId == mid)) ∧
    getVitalsHandler db mid none = listVitals db mid (some 50) := by
  have hknot : ¬(k ≤ 0) := by omega
  have hperm : List.Perm (machineVitalsSorted db mid)
      (db.vitals.filter (fun v => v.machineId == mid)) :=
    List.perm_insertionSort tsLe _
  have hlen : (machineVitalsSorted db mid).length
      = (db.vitals.filter (fun v => v.machineId == mid)).length :=
    hperm.length_eq
  have hsorted : List.Sorted tsLe (machineVitalsSorted db mid) :=
    List.sorted_insertionSort tsLe _
  have hdef : listVitals db mid (some k)
      = (machineVitalsSorted db mid).drop
          ((machineVitalsSorted db mid).length - k.toNat) := by
    simp [listVitals, jsSliceNeg, hknot]
  refine ⟨?_, ?_, ?_, ?_, ?_, hperm, ?_⟩
  · rw [hdef, List.length_drop]
    omega
  · rw [hdef]
    exact List.Pairwise.sublist (List.drop_sublist _ _) hsorted
  · intro v hv
    rw [hdef] at hv
    have hv' : v ∈ machineVitalsSorted db mid :=
      (List.drop_sublist _ _).mem hv
    have hv'' : v ∈ db.vitals.filter (fun v => v.machineId == mid) :=
      hperm.mem_iff.mp hv'
    have := List.mem_filter.mp hv''
    exact ⟨by simpa using this.2, this.1⟩
  · refine ⟨(machineVitalsSorted db mid).take
      ((machineVitalsSorted db mid).length - k.toNat), ?_⟩
    rw [hdef, List.take_append_drop]
  · rw [hdef, List.length_drop, hlen]
    omega
  · have h50 : jsParseInt "50" = some 50 := by decide
    simp [getVitalsHandler, h50]

/-- Closed instance of `c3_list_vitals` at limit 2 on the two-machine store. -/
theorem c3_list_vitals_witness :
    (listVitals dbAB "m1" (some 2)).length ≤ (2 : Int).toNat ∧
    List.Sorted tsLe (listVitals dbAB "m1" (some 2)) ∧
    (∀ v ∈ listVitals dbAB "m1" (some 2), v.machineId = "m1" ∧ v ∈ dbAB.vitals) ∧
    (∃ dropped, machineVitalsSorted dbAB "m1"
      = dropped ++ listVitals dbAB "m1" (some 2)) ∧
    (listVitals dbAB "m1" (some 2)).length
      = min (2 : Int).toNat (dbAB.vitals.filter (fun v => v.machineId == "m1")).length ∧
    List.Perm (machineVitalsSorted dbAB "m1")
      (dbAB.vitals.filter (fun v => v.machineId == "m1")) ∧
    getVitalsHandler dbAB "m1" none = listVitals dbAB "m1" (some 50) :=
  c3_list_vitals dbAB "m1" 2 (by decide)

/-- C10: a limit query of `"0"`, or one that `parseInt` cannot parse,
makes `slice` behave as `slice(0)`: the handler returns every vital of the
machine, and on a one-vital store the result is longer than the requested
limit 0. -/
theorem c10_limit_zero_or_nan (db : Db) (mid : String) (s : String)
    (hs : s ≠ "") (hp : jsParseInt s = none) :
    getVitalsHandler db mid (some "0") = machineVitalsSorted db mid ∧
    getVitalsHandler db mid (some s) = machineVitalsSorted db mid ∧
    List.Perm (getVitalsHandler db mid (some "0"))
      (db.vitals.filter (fun v => v.machineId == mid)) ∧
    (getVitalsHandler dbOneVital "m1" (some "0")).length > 0 := by
  have h0 : jsParseInt "0" = some 0 := by decide
  have hz : getVitalsHandler db mid (some "0") = machineVitalsSorted db mid := by
    simp [getVitalsHandler, h0, listVitals, jsSliceNeg]
  refine ⟨hz, ?_, ?_, by decide⟩
  · simp [getVitalsHandler, hs, hp, listVitals, jsSliceNeg]
  · rw [hz]
    exact List.perm_insertionSort tsLe _

/-- Closed instance of `c10_limit_zero_or_nan` with the unparsable limit
`"abc"`. -/
theorem c10_limit_zero_or_nan_witness :
    getVitalsHandler dbOneVital "m1" (some "0") = machineVitalsSorted dbOneVital "m1" ∧
    getVitalsHandler dbOneVital "m1" (some "abc") = machineVitalsSorted dbOneVital "m1" ∧
    List.Perm (getVitalsHandler dbOneVital "m1" (some "0"))
      (dbOneVital.vitals.filter (fun v => v.machineId == "m1")) ∧
    (getVitalsHandler dbOneVital "m1" (some "0")).length > 0 :=
  c10_limit_zero_or_nan dbOneVital "m1" "abc" (by decide) (by decide)

/-! ### Vital ingestion: `POST /api/machines/:id/vitals` -/

/-- Request body of `POST /api/machines/:id/vitals`: a non-number reading is
stored as `null` (`none`); a JS-falsy timestamp is `none` and defaults to
the ingestion time. -/
structure VitalBody where
  temperature : Option Int
  vibration : Option Int
  pressure : Option Int
  timestamp : Option Int
deriving Repr, DecidableEq

/-- The vital object the handler builds and pushes. -/
def mkVital (now : Int) (freshId : String) (mid : String) (b : VitalBody) :
    Vital :=
  { id := freshId, machineId := mid,
    temperature := b.temperature, vibration := b.vibration,
    pressure := b.pressure, timestamp := b.timestamp.getD now }

/-- The three monitored dimensions, in the fixed order the handler checks
them. -/
inductive Dim where
  | temperature
  | vibration
  | pressure
deriving Repr, DecidableEq

/-- The fixed order temperature → vibration → pressure. -/
def dimsOrder : List Dim := [Dim.temperature, Dim.vibration, Dim.pressure]

def dimValue (v : Vital) : Dim → Option Int
  | Dim.temperature => v.temperature
  | Dim.vibration => v.vibration
  | Dim.pressure => v.pressure

def dimThreshold (t : Thresholds) : Dim → Int
  | Dim.temperature => t.temperature
  | Dim.vibration => t.vibration
  | Dim.pressure => t.pressure

/-- One dimension's check `vital.x !== null && vital.x > thresholds.x`. -/
def dimBreachedB (v : Vital) (t : Thresholds) (d : Dim) : Bool :=
  match dimValue v d with
  | some x => decide (x > dimThreshold t d)
  | none => false

/-- The reason string pushed for a breached dimension, exactly the
template literals of the handler. -/
def reasonFor (v : Vital) (t : Thresholds) : Dim → String
  | Dim.temperature =>
    match v.temperature with
    | some x => "Temperature " ++ toString x ++ "°C > " ++ toString t.temperature ++ "°C"
    | none => ""
  | Dim.vibration =>
    match v.vibration with
    | some x => "Vibration " ++ toString x ++ "mm/s > " ++ toString t.vibration ++ "mm/s"
    | none => ""
  | Dim.pressure =>
    match v.pressure with
    | some x => "Pressure " ++ toString x ++ "bar > " ++ toString t.pressure ++ "bar"
    | none => ""

/-- `abnormal`: set to `true` by any of the three if-branches. -/
def isAbnormal (v : Vital) (t : Thresholds) : Bool :=
  dimBreachedB v t Dim.temperature || dimBreachedB v t Dim.vibration ||
    dimBreachedB v t Dim.pressure

/-- `reasons`: the pushes performed by the three if-branches, in program
order. -/
def breachReasons (v : Vital) (t : Thresholds) : List String :=
  (if dimBreachedB v t Dim.temperature then [reasonFor v t Dim.temperature] else []) ++
  (if dimBreachedB v t Dim.vibration then [reasonFor v t Dim.vibration] else []) ++
  (if dimBreachedB v t Dim.pressure then [reasonFor v t Dim.pressure] else [])

/-- The dedup test `!lastAlert || (now - lastAlert) / (1000 * 60) > minGapMinutes`. -/
def gapOkB (gapMinutes now : Int) : Option Int → Bool
  | none => true
  | some last =>
    decide (((now - last : Int) : ℚ) / (1000 * 60) > (gapMinutes : ℚ))

/-- Outcome of `POST /api/machines/:id/vitals`: new store, status, the
created vital, the `abnormal` flag of the response, the collected reasons,
and whether `sendAlertEmail` was invoked. -/
structure PostVitalOut where
  db : Db
  status : Nat
  vital : Option Vital
  abnormal : Bool
  reasons : List String
  sent : Bool
deriving Repr, DecidableEq

/-- `POST /api/machines/:id/vitals`: 404 for an unknown machine; otherwise
push the vital, evaluate thresholds (`machine.thresholds || default`), and
when abnormal and the minimum gap has elapsed send the alert and stamp
`lastAbnormalAlertSent = now` on the found machine object. -/
def postVital (env : Env) (now : Int) (freshId : String) (db : Db)
    (mid : String) (b : VitalBody) : PostVitalOut :=
  match db.machines.find? (fun x => x.id == mid) with
  | none =>
    { db := db, status := 404, vital := none, abnormal := false,
      reasons := [], sent := false }
  | some machine =>
    let vital := mkVital now freshId mid b
    let t := machine.thresholds.getD defaultThresholds
    let abnormal := isAbnormal vital t
    let send := abnormal && gapOkB env.minGapMinutes now machine.lastAbnormalAlertSent
    { db :=
        { machines :=
            if send then
              updateFirst (fun x => x.id == mid)
                (fun x => { x with lastAbnormalAlertSent := some now }) db.machines
            else db.machines
          vitals := db.vitals ++ [vital] }
      status := 201
      vital := some vital
      abnormal := abnormal
      reasons := breachReasons vital t
      sent := send }

/-- `sub` occurs somewhere inside `s`. -/
def containsSub (s sub : String) : Prop :=
  ∃ l r, s.data = l ++ sub.data ++ r

/-! ### Evaluation lemmas for the alert evaluator -/

theorem dimBreachedB_iff (v : Vital) (t : Thresholds) (d : Dim) :
    dimBreachedB v t d = true ↔
      ∃ x, dimValue v d = some x ∧ dimThreshold t d < x := by
  cases hval : dimValue v d <;> simp [dimBreachedB, hval, gt_iff_lt]

theorem isAbnormal_iff (v : Vital) (t : Thresholds) :
    isAbnormal v t = true ↔
      ∃ d x, dimValue v d = some x ∧ dimThreshold t d < x := by
  simp only [isAbnormal, Bool.or_eq_true, dimBreachedB_iff]
  constructor
  · rintro ((h | h) | h)
    · exact ⟨Dim.temperature, h⟩
    · exact ⟨Dim.vibration, h⟩
    · exact ⟨Dim.pressure, h⟩
  · rintro ⟨d, h⟩
    cases d
    · exact Or.inl (Or.inl h)
    · exact Or.inl (Or.inr h)
    · exact Or.inr h

theorem breachReasons_eq (v : Vital) (t : Thresholds) :
    breachReasons v t
      = (dimsOrder.filter (fun d => dimBreachedB v t d)).map (reasonFor v t) := by
  cases h1 : dimBreachedB v t Dim.temperature <;>
    cases h2 : dimBreachedB v t Dim.vibration <;>
      cases h3 : dimBreachedB v t Dim.pressure <;>
        simp [breachReasons, dimsOrder, h1, h2, h3]

theorem reason_mentions (v : Vital) (t : Thresholds) (d : Dim) (x : Int)
    (hx : dimValue v d = some x) :
    containsSub (reasonFor v t d) (toString x) ∧
    containsSub (reasonFor v t d) (toString (dimThreshold t d)) := by
  cases d <;> simp only [dimValue] at hx <;>
    simp only [reasonFor, dimThreshold, hx] <;> constructor
  · exact ⟨"Temperature ".data,
      ("°C > " ++ toString t.temperature ++ "°C").data,
      by simp [String.data_append]⟩
  · exact ⟨("Temperature " ++ toString x ++ "°C > ").data, "°C".data,
      by simp [String.data_append]⟩
  · exact ⟨"Vibration ".data,
      ("mm/s > " ++ toString t.vibration ++ "mm/s").data,
      by simp [String.data_append]⟩
  · exact ⟨("Vibration " ++ toString x ++ "mm/s > ").data, "mm/s".data,
      by simp [String.data_append]⟩
  · exact ⟨"Pressure ".data,
      ("bar > " ++ toString t.pressure ++ "bar").data,
      by simp [String.data_append]⟩
  · exact ⟨("Pressure " ++ toString x ++ "bar > ").data, "bar".data,
      by simp [String.data_append]⟩

/-! ### Claim C1 -/

/-- Vital body with a breaching temperature, used by witnesses. -/
def body90 : VitalBody :=
  { temperature := some 90, vibration := none, pressure := none,
    timestamp := none }

/-- C1: the returned abnormal flag is true iff some dimension is non-null
and strictly above its threshold; the collected reasons are exactly one per
breached dimension in the order temperature → vibration → pressure; each
reason mentions the reading and the threshold; and the handler applies this
evaluation to the appended vital against the found machine's thresholds. -/
theorem c1_abnormal_evaluation (v : Vital) (t : Thresholds) :
    (isAbnormal v t = true ↔
      ∃ d x, dimValue v d = some x ∧ dimThreshold t d < x) ∧
    breachReasons v t
      = (dimsOrder.filter (fun d => dimBreachedB v t d)).map (reasonFor v t) ∧
    (∀ d x, dimValue v d = some x → dimBreachedB v t d = true →
      containsSub (reasonFor v t d) (toString x) ∧
      containsSub (reasonFor v t d) (toString (dimThreshold t d))) ∧
    (∀ env now freshId db mid b m,
      (db : Db).machines.find? (fun x => x.id == mid) = some m →
      (postVital env now freshId db mid b).abnormal
        = isAbnormal (mkVital now freshId mid b)
            (m.thresholds.getD defaultThresholds) ∧
      (postVital env now freshId db mid b).reasons
        = breachReasons (mkVital now freshId mid b)
            (m.thresholds.getD defaultThresholds) ∧
      (postVital env now freshId db mid b).db.vitals
        = db.vitals ++ [mkVital now freshId mid b]) := by
  refine ⟨isAbnormal_iff v t, breachReasons_eq v t, ?_, ?_⟩
  · intro d x hx _
    exact reason_mentions v t d x hx
  · intro env now freshId db mid b m hm
    refine ⟨?_, ?_, ?_⟩ <;> simp [postVital, hm]

/-- Closed instance of `c1_abnormal_evaluation`: temperature 90 against
threshold 80 is abnormal, its reason mentions "90" and "80", and the
handler evaluates the appended vital. -/
theorem c1_abnormal_evaluation_witness :
    isAbnormal vitA1 defaultThresholds = true ∧
    breachReasons vitA1 defaultThresholds
      = (dimsOrder.filter (fun d => dimBreachedB vitA1 defaultThresholds d)).map
          (reasonFor vitA1 defaultThresholds) ∧
    containsSub (reasonFor vitA1 defaultThresholds Dim.temperature)
      (toString (90 : Int)) ∧
    containsSub (reasonFor vitA1 defaultThresholds Dim.temperature)
      (toString (80 : Int)) ∧
    (postVital defaultEnv 0 "f1" dbAB "m1" body90).abnormal
      = isAbnormal (mkVital 0 "f1" "m1" body90)
          (machA.thresholds.getD defaultThresholds) := by
  have h := c1_abnormal_evaluation vitA1 defaultThresholds
  have h4 := (c1_abnormal_evaluation (mkVital 0 "f1" "m1" body90)
      (machA.thresholds.getD defaultThresholds)).2.2.2
      defaultEnv 0 "f1" dbAB "m1" body90 machA (by decide)
  exact ⟨h.1.mpr ⟨Dim.temperature, 90, rfl, by decide⟩, h.2.1,
    (h.2.2.1 Dim.temperature 90 rfl (by decide)).1,
    (h.2.2.1 Dim.temperature 90 rfl (by decide)).2, h4.1⟩

/-! ### Claim C2 -/

/-- Unfolding equation for `postVital` when the machine is found. -/
theorem postVital_found (env : Env) (now : Int) (freshId : String) (db : Db)
    (mid : String) (b : VitalBody) (mm : Machine)
    (hm : db.machines.find? (fun x => x.id == mid) = some mm) :
    postVital env now freshId db mid b =
      { db :=
          { machines :=
              if isAbnormal (mkVital now freshId mid b)
                    (mm.thresholds.getD defaultThresholds)
                  && gapOkB env.minGapMinutes now mm.lastAbnormalAlertSent then
                updateFirst (fun x => x.id == mid)
                  (fun x => { x with lastAbnormalAlertSent := some now })
                  db.machines
              else db.machines
            vitals := db.vitals ++ [mkVital now freshId mid b] }
        status := 201
        vital := some (mkVital now freshId mid b)
        abnormal := isAbnormal (mkVital now freshId mid b)
            (mm.thresholds.getD defaultThresholds)
        reasons := breachReasons (mkVital now freshId mid b)
            (mm.thresholds.getD defaultThresholds)
        sent := isAbnormal (mkVital now freshId mid b)
              (mm.thresholds.getD defaultThresholds)
            && gapOkB env.minGapMinutes now mm.lastAbnormalAlertSent } := by
  unfold postVital
  rw [hm]

/-- C2: an alert is sent on ingestion only when the reading is abnormal and
`lastAbnormalAlertSent` is null or more than the minimum gap (in minutes)
old; on send the stamp becomes now (and without a send the machines are
untouched).  Consequently two abnormal posts within the gap produce at most
one send, and a send followed by an abnormal post after the gap produces a
second send. -/
theorem c2_alert_dedup (env : Env) (t1 t2 : Int) (f1 f2 : String) (db : Db)
    (mid : String) (b1 b2 : VitalBody) (m : Machine)
    (hm : db.machines.find? (fun x => x.id == mid) = some m) :
    ((postVital env t1 f1 db mid b1).sent = true →
      (postVital env t1 f1 db mid b1).abnormal = true ∧
      (m.lastAbnormalAlertSent = none ∨
        ∀ last, m.lastAbnormalAlertSent = some last →
          ((t1 - last : Int) : ℚ) / (1000 * 60) > (env.minGapMinutes : ℚ))) ∧
    ((postVital env t1 f1 db mid b1).sent = true →
      (postVital env t1 f1 db mid b1).db.machines.find? (fun x => x.id == mid)
        = some { m with lastAbnormalAlertSent := some t1 }) ∧
    ((postVital env t1 f1 db mid b1).sent = false →
      (postVital env t1 f1 db mid b1).db.machines = db.machines) ∧
    (((t2 - t1 : Int) : ℚ) / (1000 * 60) ≤ (env.minGapMinutes : ℚ) →
      ¬((postVital env t1 f1 db mid b1).sent = true ∧
        (postVital env t2 f2 (postVital env t1 f1 db mid b1).db mid b2).sent
          = true)) ∧
    ((postVital env t1 f1 db mid b1).sent = true →
      ((t2 - t1 : Int) : ℚ) / (1000 * 60) > (env.minGapMinutes : ℚ) →
      (postVital env t2 f2 (postVital env t1 f1 db mid b1).db mid b2).abnormal
        = true →
      (postVital env t2 f2 (postVital env t1 f1 db mid b1).db mid b2).sent
        = true) := by
  have hpm : (m.id == mid) = true := by simpa using List.find?_some hm
  obtain ⟨pre, post, hsplit, hpre'⟩ := find?_eq_some_decomp _ db.machines m hm
  have h1 := postVital_found env t1 f1 db mid b1 m hm
  have hsent1 : (postVital env t1 f1 db mid b1).sent
      = (isAbnormal (mkVital t1 f1 mid b1) (m.thresholds.getD defaultThresholds)
          && gapOkB env.minGapMinutes t1 m.lastAbnormalAlertSent) := by
    rw [h1]
  have habn1 : (postVital env t1 f1 db mid b1).abnormal
      = isAbnormal (mkVital t1 f1 mid b1) (m.thresholds.getD defaultThresholds) := by
    rw [h1]
  have hkey : (postVital env t1 f1 db mid b1).sent = true →
      (postVital env t1 f1 db mid b1).db.machines.find? (fun x => x.id == mid)
        = some { m with lastAbnormalAlertSent := some t1 } := by
    intro hs
    rw [hsent1] at hs
    have hdbm : (postVital env t1 f1 db mid b1).db.machines
        = updateFirst (fun x => x.id == mid)
            (fun x => { x with lastAbnormalAlertSent := some t1 }) db.machines := by
      rw [h1]
      simp [hs]
    rw [hdbm, hsplit,
      updateFirst_append_cons _ _ pre m post hpre' hpm]
    exact find?_append_cons _ pre _ post hpre' hpm
  refine ⟨?_, hkey, ?_, ?_, ?_⟩
  · intro hs
    rw [hsent1] at hs
    rw [Bool.and_eq_true] at hs
    obtain ⟨ha, hg⟩ := hs
    refine ⟨by rw [habn1]; exact ha, Or.inr ?_⟩
    intro last hlast
    rw [hlast] at hg
    simp only [gapOkB, decide_eq_true_eq] at hg
    exact hg
  · intro hs
    rw [hsent1] at hs
    rw [h1]
    simp [hs]
  · intro hle
    rintro ⟨hs1, hs2⟩
    have hfm' := hkey hs1
    have h2 := postVital_found env t2 f2 (postVital env t1 f1 db mid b1).db
      mid b2 _ hfm'
    simp only [h2, Bool.and_eq_true] at hs2
    obtain ⟨-, hg2⟩ := hs2
    have hnot : ¬(((t2 - t1 : Int) : ℚ) / (1000 * 60) > (env.minGapMinutes : ℚ)) :=
      not_lt.mpr hle
    push_cast at hnot
    simp [gapOkB] at hg2
    exact hnot hg2
  · intro hs1 hgt habn2
    have hfm' := hkey hs1
    have h2 := postVital_found env t2 f2 (postVital env t1 f1 db mid b1).db
      mid b2 _ hfm'
    simp only [h2] at habn2 ⊢
    rw [habn2]
    push_cast at hgt
    simp [gapOkB, hgt]

/-- Closed instance of `c2_alert_dedup`: two abnormal posts one minute
apart on machine `m1` under the default 30-minute gap. -/
theorem c2_alert_dedup_witness :
    ((postVital defaultEnv 0 "f1" dbAB "m1" body90).sent = true →
      (postVital defaultEnv 0 "f1" dbAB "m1" body90).abnormal = true ∧
      (machA.lastAbnormalAlertSent = none ∨
        ∀ last, machA.lastAbnormalAlertSent = some last →
          ((0 - last : Int) : ℚ) / (1000 * 60) > (defaultEnv.minGapMinutes : ℚ))) ∧
    ((postVital defaultEnv 0 "f1" dbAB "m1" body90).sent = true →
      (postVital defaultEnv 0 "f1" dbAB "m1" body90).db.machines.find?
        (fun x => x.id == "m1")
        = some { machA with lastAbnormalAlertSent := some 0 }) ∧
    ((postVital defaultEnv 0 "f1" dbAB "m1" body90).sent = false →
      (postVital defaultEnv 0 "f1" dbAB "m1" body90).db.machines = dbAB.machines) ∧
    (((60000 - 0 : Int) : ℚ) / (1000 * 60) ≤ (defaultEnv.minGapMinutes : ℚ) →
      ¬((postVital defaultEnv 0 "f1" dbAB "m1" body90).sent = true ∧
        (postVital defaultEnv 60000 "f2"
          (postVital defaultEnv 0 "f1" dbAB "m1" body90).db "m1" body90).sent
            = true)) ∧
    ((postVital defaultEnv 0 "f1" dbAB "m1" body90).sent = true →
      ((60000 - 0 : Int) : ℚ) / (1000 * 60) > (defaultEnv.minGapMinutes : ℚ) →
      (postVital defaultEnv 60000 "f2"
        (postVital defaultEnv 0 "f1" dbAB "m1" body90).db "m1" body90).abnormal
          = true →
      (postVital defaultEnv 60000 "f2"
        (postVital defaultEnv 0 "f1" dbAB "m1" body90).db "m1" body90).sent
          = true) :=
  c2_alert_dedup defaultEnv 0 60000 "f1" "f2" dbAB "m1" body90 body90 machA
    (by decide)

/-! ### Maintenance reminder loop: `checkUpcomingMaintenance` -/

/-- The daily-gap test
`!lastSent || (now - lastSent) / (1000 * 60 * 60 * 24) >= 1`. -/
def reminderGapOkB (now : Int) : Option Int → Bool
  | none => true
  | some last =>
    decide (((now - last : Int) : ℚ) / (1000 * 60 * 60 * 24) ≥ 1)

/-- One machine's step of the sweep: skip machines without a maintenance
date, otherwise compare `diffDays = (due - now) / 86400000` with the
lookahead window and the daily gap; on send stamp the reminder time.  (The
source's `if (diffDays < 0) diffDaysMessage = 'OVERDUE'` only writes a
stray global and has no effect on the decision.)  Returns the updated
machine and whether a reminder email was sent for it. -/
def maintStep (env : Env) (now : Int) (m : Machine) : Machine × Bool :=
  match m.nextMaintenanceDate with
  | none => (m, false)
  | some due =>
    if ((due - now : Int) : ℚ) / (1000 * 60 * 60 * 24) ≤ (env.lookaheadDays : ℚ) then
      if reminderGapOkB now m.lastMaintenanceReminderSent then
        ({ m with lastMaintenanceReminderSent := some now }, true)
      else (m, false)
    else (m, false)

/-- `checkUpcomingMaintenance`: sweep every machine, returning the updated
store and the names of the machines a reminder was sent for. -/
def checkUpcomingMaintenance (env : Env) (now : Int) (db : Db) :
    Db × List String :=
  ({ machines := db.machines.map (fun m => (maintStep env now m).1)
     vitals := db.vitals },
   (db.machines.filter (fun m => (maintStep env now m).2)).map (fun m => m.name))

/-- The process state: the in-memory store and the JSON file on disk. -/
structure Sys where
  mem : Db
  disk : Db
deriving Repr, DecidableEq

/-- `saveDb(db)`: rewrite the file with the in-memory state. -/
def saveDb (s : Sys) : Sys := { mem := s.mem, disk := s.mem }

/-- One timer tick: run the sweep on the in-memory store, then `saveDb`. -/
def sweep (env : Env) (now : Int) (s : Sys) : Sys × List String :=
  (saveDb { mem := (checkUpcomingMaintenance env now s.mem).1, disk := s.disk },
   (checkUpcomingMaintenance env now s.mem).2)

/-! ### Claim C8 -/

theorem reminderGapOkB_iff (now : Int) (o : Option Int) :
    reminderGapOkB now o = true ↔
      (o = none ∨ ∃ last, o = some last ∧
        ((now - last : Int) : ℚ) / (1000 * 60 * 60 * 24) ≥ 1) := by
  cases o <;> simp [reminderGapOkB]

/-- C8: in a sweep, a machine gets a reminder exactly when it has a
maintenance date whose fractional days-until-due is at most the lookahead
window (overdue dates included) and no reminder was ever sent or the last
one is at least one full day old; on send `lastMaintenanceReminderSent`
becomes now, otherwise the machine is untouched; the sent reminder appears
in the sweep's output, the stepped machine is in the new store, and the
store is persisted to disk after the sweep. -/
theorem c8_maintenance_reminder (env : Env) (now : Int) (s : Sys) (m : Machine)
    (hm : m ∈ s.mem.machines) :
    ((maintStep env now m).2 = true ↔
      ∃ due, m.nextMaintenanceDate = some due ∧
        ((due - now : Int) : ℚ) / (1000 * 60 * 60 * 24) ≤ (env.lookaheadDays : ℚ) ∧
        (m.lastMaintenanceReminderSent = none ∨
          ∃ last, m.lastMaintenanceReminderSent = some last ∧
            ((now - last : Int) : ℚ) / (1000 * 60 * 60 * 24) ≥ 1)) ∧
    ((maintStep env now m).2 = true →
      (maintStep env now m).1.lastMaintenanceReminderSent = some now) ∧
    ((maintStep env now m).2 = false → (maintStep env now m).1 = m) ∧
    ((maintStep env now m).2 = true → m.name ∈ (sweep env now s).2) ∧
    (maintStep env now m).1 ∈ (sweep env now s).1.mem.machines ∧
    (sweep env now s).1.disk = (sweep env now s).1.mem := by
  refine ⟨?_, ?_, ?_, ?_, ?_, rfl⟩
  · constructor
    · intro h
      rcases hd : m.nextMaintenanceDate with _ | due
      · rw [maintStep] at h
        simp [hd] at h
      · rw [maintStep] at h
        simp only [hd] at h
        by_cases h1 : ((due - now : Int) : ℚ) / (1000 * 60 * 60 * 24)
            ≤ (env.lookaheadDays : ℚ)
        · rw [if_pos h1] at h
          by_cases h2 : reminderGapOkB now m.lastMaintenanceReminderSent = true
          · exact ⟨due, rfl, h1, (reminderGapOkB_iff _ _).mp h2⟩
          · rw [if_neg (by simpa using h2)] at h
            simp at h
        · rw [if_neg h1] at h
          simp at h
    · rintro ⟨due, hdue, hle, hgap⟩
      rw [maintStep]
      simp only [hdue]
      rw [if_pos hle, if_pos ((reminderGapOkB_iff _ _).mpr hgap)]
  · intro h
    rcases hd : m.nextMaintenanceDate with _ | due
    · rw [maintStep] at h
      simp [hd] at h
    · rw [maintStep] at h ⊢
      simp only [hd] at h ⊢
      split_ifs at h ⊢ with h1 h2
      · rfl
  · intro h
    rcases hd : m.nextMaintenanceDate with _ | due
    · rw [maintStep]
      simp [hd]
    · rw [maintStep] at h ⊢
      simp only [hd] at h ⊢
      split_ifs at h ⊢ with h1 h2
      · rfl
      · rfl
  · intro h
    refine List.mem_map.mpr ⟨m, List.mem_filter.mpr ⟨hm, h⟩, rfl⟩
  · exact List.mem_map_of_mem _ hm

/-- Process state holding the two-machine store in memory and on disk. -/
def sysAB : Sys := { mem := dbAB, disk := dbAB }

/-- Closed instance of `c8_maintenance_reminder`: at time 0, machine `m1`
is due in 1000000 ms (≈ 0.01 days ≤ 7) with no reminder ever sent. -/
theorem c8_maintenance_reminder_witness :
    ((maintStep defaultEnv 0 machA).2 = true ↔
      ∃ due, machA.nextMaintenanceDate = some due ∧
        ((due - 0 : Int) : ℚ) / (1000 * 60 * 60 * 24)
          ≤ (defaultEnv.lookaheadDays : ℚ) ∧
        (machA.lastMaintenanceReminderSent = none ∨
          ∃ last, machA.lastMaintenanceReminderSent = some last ∧
            ((0 - last : Int) : ℚ) / (1000 * 60 * 60 * 24) ≥ 1)) ∧
    ((maintStep defaultEnv 0 machA).2 = true →
      (maintStep defaultEnv 0 machA).1.lastMaintenanceReminderSent = some 0) ∧
    ((maintStep defaultEnv 0 machA).2 = false →
      (maintStep defaultEnv 0 machA).1 = machA) ∧
    ((maintStep defaultEnv 0 machA).2 = true →
      machA.name ∈ (sweep defaultEnv 0 sysAB).2) ∧
    (maintStep defaultEnv 0 machA).1 ∈ (sweep defaultEnv 0 sysAB).1.mem.machines ∧
    (sweep defaultEnv 0 sysAB).1.disk = (sweep defaultEnv 0 sysAB).1.mem :=
  c8_maintenance_reminder defaultEnv 0 sysAB machA (by decide)
